import Mathlib

/-!
Verification of the row-processing pipeline of `src/app.py`
(product image scraper): domain filtering, search-result scanning with
retry, per-row result/stats assembly, and the summary report.

Python strings are modelled as Lean `String` (sequences of unicode code
points, matching Python's `str`; `len` = `String.length`).  Python's
`None`-or-`list` optional parameters are modelled as `Option (List String)`,
with Python truthiness (`if lst:`) modelled by `pyTruthy`.  The external
transport (Selenium/Bing) is modelled by an environment supplying, per
attempt, either a raised transport error or the list of result containers;
every other operation is translated directly from the source.
-/

/-- Python truthiness of an optional list argument (`if lst:`):
`None` and `[]` are falsy, a non-empty list is truthy. -/
def pyTruthy : Option (List String) → Bool
  | none => false
  | some l => !l.isEmpty

/-- `leadMatch n h`: the character list `n` is an initial segment of `h`. -/
def leadMatch : List Char → List Char → Bool
  | [], _ => true
  | _ :: _, [] => false
  | a :: as, b :: bs => a == b && leadMatch as bs

/-- `subMatch n h`: `n` occurs contiguously inside `h`
(Python's `n in h` on strings). -/
def subMatch (n : List Char) : List Char → Bool
  | [] => n.isEmpty
  | b :: bs => leadMatch n (b :: bs) || subMatch n bs

/-- Python's substring operator `needle in hay`. -/
def pyIn (needle hay : String) : Bool := subMatch needle.data hay.data

/-- ASCII lower-casing of one character (the domains handled by the app are
ASCII; Python's `str.lower` agrees on them). -/
def lowerChar (c : Char) : Char :=
  if 'A' ≤ c ∧ c ≤ 'Z' then Char.ofNat (c.toNat + 32) else c

/-- Python's `str.lower` (ASCII fragment). -/
def pyLower (s : String) : String := ⟨s.data.map lowerChar⟩

/-- Python's `str.strip()`: remove leading and trailing whitespace. -/
def pyStrip (s : String) : String :=
  ⟨((s.data.dropWhile Char.isWhitespace).reverse.dropWhile Char.isWhitespace).reverse⟩

/-- Python's slice `s[:n]` on strings (first `n` code points). -/
def strTake (n : Nat) (s : String) : String := ⟨s.data.take n⟩

/-- Python's `sep.join(xs)`. -/
def pyJoin (sep : String) : List String → String
  | [] => ""
  | [x] => x
  | x :: y :: xs => x ++ sep ++ pyJoin sep (y :: xs)

/-- Is `c` a character allowed in a URL scheme (letters, digits, `+`, `-`, `.`)?
Modelled from the spec: part of Python's `urllib.parse.urlparse`, which is
standard-library code not present under `src/`. -/
def isSchemeChar (c : Char) : Bool := c.isAlpha || c.isDigit || c == '+' || c == '-' || c == '.'

/-- Modelled from the spec: the scheme-splitting step of Python's
`urllib.parse.urlparse` (standard-library code not present under `src/`):
when the text before the first `:` is a letter followed by scheme
characters, drop `scheme:`. -/
def dropScheme (cs : List Char) : List Char :=
  let p := cs.takeWhile (fun c => c != ':')
  let headAlpha : Bool := match p with | c :: _ => c.isAlpha | [] => false
  if decide (p.length < cs.length) && headAlpha && p.all isSchemeChar then
    cs.drop (p.length + 1)
  else cs

/-- Modelled from the spec: the `netloc` component of Python's
`urllib.parse.urlparse` (standard-library code not present under `src/`),
including its failure mode: after stripping an optional scheme, a URL
starting with `//` has as netloc the characters up to the next `/`, `?`
or `#` — but when that netloc contains `[` without `]` or `]` without
`[`, `urlparse` raises `ValueError: Invalid IPv6 URL`, modelled as
`none`.  (That mismatched-bracket check is present in every CPython
version; CPython 3.11+ additionally validates the contents of a
bracketed host, a version-dependent refinement not modelled.)  A URL
without `//` has an empty netloc. -/
def netlocChars (cs : List Char) : Option (List Char) :=
  match dropScheme cs with
  | '/' :: '/' :: rest =>
    let nl := rest.takeWhile (fun c => c != '/' && c != '?' && c != '#')
    if (nl.contains '[' && !nl.contains ']') || (nl.contains ']' && !nl.contains '[') then
      none
    else some nl
  | _ => some []

/-- `urlparse(url).netloc`; `none` when `urlparse` raises. -/
def netlocTry (s : String) : Option String := (netlocChars s.data).map (fun l => ⟨l⟩)

/-- `urlparse(url).netloc` with the raising case mapped to `""` — the
value `source_domain` keeps under the inner `try/except: pass` of
src/app.py lines 251-255. -/
def netloc (s : String) : String := (netlocTry s).getD ""

/-- `is_domain_allowed` (src/app.py lines 36-56): empty URL rejected;
the `try` block computes `urlparse(url).netloc.lower()`, and when
`urlparse` raises (mismatched IPv6 brackets) the `except` of lines 55-56
returns `False`; otherwise the lowercased host is checked against the
blacklist first (any entry occurring as substring rejects), then the
whitelist (membership of at least one entry as substring is required
when the whitelist is truthy), else accepted.  Nothing after the netloc
extraction raises, so the `except` is reached exactly when `netlocTry`
is `none`. -/
def is_domain_allowed (url : String) (whitelist blacklist : Option (List String)) : Bool :=
  if url = "" then false
  else
    match netlocTry url with
    | none => false
    | some host =>
      let domain := pyLower host
      if pyTruthy blacklist && (blacklist.getD []).any (fun b => pyIn (pyLower b) domain) then
        false
      else if pyTruthy whitelist then
        (whitelist.getD []).any (fun a => pyIn (pyLower a) domain)
      else
        true

/-- The decision procedure as the amended claim words it (claim-side
definition, to be compared with `is_domain_allowed`): reject empty URLs;
reject a URL whose host extraction raises (mismatched IPv6 brackets);
otherwise reject when a present blacklist entry occurs
(case-insensitively) in the lowercased host; else when a whitelist is
present accept iff some entry occurs in the host; else accept.
"Present" is Python truthiness: a supplied, non-empty list. -/
def specAllows (url : String) (whitelist blacklist : Option (List String)) : Bool :=
  if url = "" then false
  else
    match netlocTry url with
    | none => false
    | some host =>
      if pyTruthy blacklist = true ∧
          (blacklist.getD []).any (fun e => pyIn (pyLower e) (pyLower host)) = true then false
      else if pyTruthy whitelist = true then
        (whitelist.getD []).any (fun e => pyIn (pyLower e) (pyLower host))
      else true

/-- One raw Bing result container's decoded `m` payload
(src/app.py lines 99-111): source page URL `purl` (defaulting to `""`),
and optional `murl` / `turl` image URLs. -/
structure Candidate where
  purl : String
  murl : Option String
  turl : Option String
deriving DecidableEq

/-- Python's `a or b` for optional strings (`data.get('murl') or
data.get('turl')`): `None` and `""` are falsy. -/
def pyOrStr : Option String → Option String → Option String
  | some s, b => if s = "" then b else some s
  | none, b => b

/-- `image_url = data.get('murl') or data.get('turl')` (src/app.py line 111). -/
def candImage (c : Candidate) : Option String := pyOrStr c.murl c.turl

/-- `if image_url and len(image_url) > 20` (src/app.py line 113). -/
def imageOk (iu : String) : Bool := decide (iu ≠ "" ∧ 20 < iu.length)

/-- A candidate the scraper accepts: its hosting page passes the domain
filter and it carries a usable image URL (src/app.py lines 107-114). -/
def candAccepted (wl bl : Option (List String)) (c : Candidate) : Bool :=
  is_domain_allowed c.purl wl bl &&
    (match candImage c with
     | some iu => imageOk iu
     | none => false)

/-- The accepted candidates, in order, among a list of containers
(`none` models a container without an `m` attribute or whose payload
fails to decode, skipped by the inner `except`). -/
def acceptedList (wl bl : Option (List String)) (cs : List (Option Candidate)) : List Candidate :=
  (cs.filterMap id).filter (candAccepted wl bl)

/-- The body of one iteration of the container loop
(src/app.py lines 98-120): an undecodable container (`none`), a
domain-filtered hosting page, or a missing/empty/short image URL leaves
the state unchanged; otherwise the image URL is appended and, when no
source page URL is recorded yet and the page URL is non-empty, the page
URL is recorded. -/
def scanUpdate (wl bl : Option (List String)) :
    Option Candidate → List String → String → List String × String
  | none, us, sp => (us, sp)
  | some cand, us, sp =>
    if is_domain_allowed cand.purl wl bl then
      match candImage cand with
      | some iu =>
        if imageOk iu then
          (us ++ [iu], if sp = "" ∧ cand.purl ≠ "" then cand.purl else sp)
        else (us, sp)
      | none => (us, sp)
    else (us, sp)

/-- The container loop of `search_product_images` (src/app.py lines 94-120):
walk the containers, breaking once `max_results` image URLs are collected,
applying `scanUpdate` to each container. -/
def scanContainers (wl bl : Option (List String)) (m : Nat) :
    List (Option Candidate) → List String → String → List String × String
  | [], us, sp => (us, sp)
  | c :: rest, us, sp =>
    if m ≤ us.length then (us, sp)
    else
      let r := scanUpdate wl bl c us sp
      scanContainers wl bl m rest r.1 r.2

/-- One attempt of the retry loop: either the transport raised
(`driver.get` / `find_elements`, caught by the outer `except`) with a
message, or it produced a list of result containers. -/
inductive Attempt where
  | fail (msg : String)
  | ok (containers : List (Option Candidate))
deriving DecidableEq

/-- Mutable state of `search_product_images`: the collected image URLs,
the source page URL, and (for the retry contract) the list of backoff
sleeps taken between failed attempts. -/
structure SearchState where
  imageUrls : List String
  sourcePageUrl : String
  backoffs : List Nat
deriving DecidableEq

/-- The retry loop of `search_product_images` (src/app.py lines 83-130):
each attempt scans the first `max_results * 3` containers; a non-empty
URL list breaks the loop; a transport failure on a non-final attempt
sleeps 3 seconds and retries, and on the final attempt only warns. -/
def searchAttempts (wl bl : Option (List String)) (m : Nat) :
    List Attempt → SearchState → SearchState
  | [], st => st
  | .fail _ :: rest, st =>
    match rest with
    | [] => st
    | _ :: _ => searchAttempts wl bl m rest { st with backoffs := st.backoffs ++ [3] }
  | .ok cs :: rest, st =>
    let r := scanContainers wl bl m (cs.take (m * 3)) st.imageUrls st.sourcePageUrl
    if r.1.isEmpty then
      searchAttempts wl bl m rest { st with imageUrls := r.1, sourcePageUrl := r.2 }
    else
      { st with imageUrls := r.1, sourcePageUrl := r.2 }

/-- `search_product_images` (src/app.py lines 58-132), with the transport
abstracted as the per-attempt environment `outcomes`: runs `retry_count`
attempts and returns `(image_urls[:max_results], source_page_url)`
together with the recorded retry backoffs.  All transport failures are
caught inside the function; it returns a value for every environment. -/
def search_product_images (wl bl : Option (List String)) (m retry : Nat)
    (outcomes : Nat → Attempt) : List String × String × List Nat :=
  let st := searchAttempts wl bl m ((List.range retry).map outcomes) ⟨[], "", []⟩
  (st.imageUrls.take m, st.sourcePageUrl, st.backoffs)

/-- The query composition inside `search_product_images`
(src/app.py lines 71-81): stripped non-blank brand, supplier, description
in that order, then the fixed token `"product"`, joined by spaces. -/
def buildSearchString (description supplier brand : String) : String :=
  let parts :=
    (if brand ≠ "" ∧ pyStrip brand ≠ "" then [pyStrip brand] else [])
    ++ (if supplier ≠ "" ∧ pyStrip supplier ≠ "" then [pyStrip supplier] else [])
    ++ (if description ≠ "" ∧ pyStrip description ≠ "" then [pyStrip description] else [])
  pyJoin " " (parts ++ ["product"])

/-- The accepted candidates of the first attempt that accepts any
(claim-side characterisation of the retry loop's result). -/
def firstAcceptedCands (wl bl : Option (List String)) (m : Nat) : List Attempt → List Candidate
  | [] => []
  | .fail _ :: rest => firstAcceptedCands wl bl m rest
  | .ok cs :: rest =>
    let a := acceptedList wl bl (cs.take (m * 3))
    if a.isEmpty then firstAcceptedCands wl bl m rest else a

/-- One input row's selected fields, after the `str(...)`/`pd.notna`
conversions of src/app.py lines 217-222 (absent supplier/brand columns
become `""` via the `_temp_*` columns). -/
structure Record where
  productId : String
  description : String
  supplier : String
  brand : String
deriving DecidableEq

/-- One row of the Results table (selected input columns plus the three
URL columns added at src/app.py lines 179-181). -/
structure ResultRow where
  productId : String
  description : String
  supplier : String
  brand : String
  imageUrl1 : String
  imageUrl2 : String
  productPageUrl : String
deriving DecidableEq

/-- One row of the Statistics table (src/app.py lines 185-190). -/
structure StatsRow where
  productId : String
  searchQuery : String
  sourceDomain : String
  imagesFound : Nat
  searchStatus : String
  processedDateTime : String
deriving DecidableEq

/-- Outcome of the guarded `search_product_images` call at the row
boundary (src/app.py lines 231-240): either the call raised with a
message, or it returned `(image_urls, product_url)`. -/
abbrev Resp := Except String (List String × String)

/-- The display search query of src/app.py lines 227-228: the original
(unstripped) brand, supplier, description values whose stripped form is
non-blank, joined by spaces.  Note: no trailing `"product"` token. -/
def displayQuery (r : Record) : String :=
  pyJoin " " (([r.brand, r.supplier, r.description]).filter (fun p => pyStrip p != ""))

/-- A pre-created Results row (src/app.py lines 176-181): the selected
columns plus empty URL slots. -/
def initResultRow (r : Record) : ResultRow :=
  { productId := r.productId, description := r.description, supplier := r.supplier,
    brand := r.brand, imageUrl1 := "", imageUrl2 := "", productPageUrl := "" }

/-- A pre-created Statistics row (src/app.py lines 184-190): the product
identifier plus empty/zero tracking fields. -/
def initStatsRow (r : Record) : StatsRow :=
  { productId := r.productId, searchQuery := "", sourceDomain := "",
    imagesFound := 0, searchStatus := "", processedDateTime := "" }

/-- Filling one Results row (src/app.py lines 242-247): on success the
returned URLs fill the slots positionally and the product page URL is
stored; if the call raised, the pre-created empty slots remain. -/
def fillResult (rec : Record) (resp : Resp) : ResultRow :=
  match resp with
  | .error _ => initResultRow rec
  | .ok (urls, purl) =>
    { initResultRow rec with
      imageUrl1 := urls.getD 0 "",
      imageUrl2 := urls.getD 1 "",
      productPageUrl := purl }

/-- Filling one Statistics row (src/app.py lines 249-284): on a raised
call only the status is written (`'Error: '` plus the first 50 message
characters); otherwise query, source domain, image count, timestamp and
the Success/Filtered/Failed classification are written. -/
def fillStats (wl bl : Option (List String)) (now : String) (rec : Record) (resp : Resp) : StatsRow :=
  match resp with
  | .error e =>
    { initStatsRow rec with searchStatus := "Error: " ++ strTake 50 e }
  | .ok (urls, purl) =>
    { productId := rec.productId,
      searchQuery := displayQuery rec,
      sourceDomain := if purl ≠ "" then netloc purl else "",
      imagesFound := urls.length,
      searchStatus :=
        if urls ≠ [] then "Success"
        else if pyTruthy wl || pyTruthy bl then "Filtered - No allowed domains"
        else "Failed - No images found",
      processedDateTime := now }

/-- The row loop of `process_dataframe` (src/app.py lines 210-307): for
each selected record, overwrite row `i` of the pre-created Results and
Statistics tables in place with the filled rows. -/
def fillLoop (wl bl : Option (List String)) (now : String) (resp : Nat → Resp) :
    List Record → Nat → List ResultRow → List StatsRow → List ResultRow × List StatsRow
  | [], _, rs, ss => (rs, ss)
  | r :: rest, i, rs, ss =>
    fillLoop wl bl now resp rest (i + 1)
      (rs.set i (fillResult r (resp i)))
      (ss.set i (fillStats wl bl now r (resp i)))

/-- `process_dataframe` (src/app.py lines 141-313): select the first
`num_rows` records, pre-create one empty Results row and one empty
Statistics row per selected record, then run the fill loop.  The
per-row search outcome is supplied by the environment `resp`; progress
display, checkpoint copies and inter-row sleeps do not touch the tables. -/
def process_dataframe (wl bl : Option (List String)) (now : String)
    (records : List Record) (numRows : Nat) (resp : Nat → Resp) :
    List ResultRow × List StatsRow :=
  let sel := records.take numRows
  fillLoop wl bl now resp sel 0 (sel.map initResultRow) (sel.map initStatsRow)

/-- The status classification as the (amended) specification words it:
a raised call gives `"Error: "` plus the first 50 message characters;
else a non-empty URL list gives `"Success"`; else a configured whitelist
or blacklist gives `"Filtered - No allowed domains"`; else
`"Failed - No images found"`. -/
def classifyStatus (wl bl : Option (List String)) (resp : Resp) : String :=
  match resp with
  | .error e => "Error: " ++ strTake 50 e
  | .ok (urls, _) =>
    if urls ≠ [] then "Success"
    else if pyTruthy wl || pyTruthy bl then "Filtered - No allowed domains"
    else "Failed - No images found"

/-- `(stats_df['Search_Status'] == 'Success').sum()` (src/app.py line 323). -/
def successCount (stats : List StatsRow) : Nat :=
  stats.countP (fun s => s.searchStatus == "Success")

/-- `stats_df['Search_Status'].str.contains('Failed').sum()` (line 324). -/
def failedCount (stats : List StatsRow) : Nat :=
  stats.countP (fun s => pyIn "Failed" s.searchStatus)

/-- `stats_df['Search_Status'].str.contains('Filtered').sum()` (line 325). -/
def filteredCount (stats : List StatsRow) : Nat :=
  stats.countP (fun s => pyIn "Filtered" s.searchStatus)

/-- `stats_df['Search_Status'].str.contains('Error').sum()` (line 326). -/
def errorCount (stats : List StatsRow) : Nat :=
  stats.countP (fun s => pyIn "Error" s.searchStatus)

/-- `stats_df['Source_Domain'].nunique()` (src/app.py line 376): the
number of distinct values of the column (the empty string counts as a
value when present). -/
def uniqueDomainCount (stats : List StatsRow) : Nat :=
  ((stats.map (fun s => s.sourceDomain)).dedup).length

/-- The non-empty source domains paired with their frequencies
(`value_counts` input of src/app.py line 331), keyed in first-occurrence
order. -/
def domainCounts (stats : List StatsRow) : List (String × Nat) :=
  let ds := (stats.map (fun s => s.sourceDomain)).filter (fun d => d != "")
  ds.dedup.map (fun d => (d, ds.count d))

/-- Stable insertion, placing `x` before the first entry with a strictly
smaller count (descending order of `value_counts`). -/
def insertDesc (x : String × Nat) : List (String × Nat) → List (String × Nat)
  | [] => [x]
  | y :: ys => if y.2 < x.2 then x :: y :: ys else y :: insertDesc x ys

/-- Sort domain/count pairs by count, descending (the order of
`value_counts`; ties keep first-occurrence order, which no claim relies
on). -/
def sortDesc : List (String × Nat) → List (String × Nat)
  | [] => []
  | x :: xs => insertDesc x (sortDesc xs)

/-- The `#i - domain` summary lines for the top domains
(src/app.py lines 359-361), numbering from `i`. -/
def topDomainLines : Nat → List (String × Nat) → List String
  | _, [] => []
  | i, (d, _) :: rest => ("#" ++ toString i ++ " - " ++ d) :: topDomainLines (i + 1) rest

/-- The `Metric` column of the Summary sheet (src/app.py lines 335-384).
The float comparisons `total_filtered > total_processed * 0.3` and
`total_failed > total_processed * 0.2` are modelled by the exact rational
comparisons `10*filtered > 3*total` and `5*failed > total`; for every
table size below 2^50 rows the double-precision comparison and the exact
one agree (the constant relative error of the products is under half an
ulp at every integer boundary), so the model is faithful on all
representable inputs.  The parallel `Value` column holds only display
strings (with float formatting) that no claim refers to and is not
modelled. -/
def summaryMetrics (stats : List StatsRow) : List String :=
  ["Total Products Processed", "Successful Searches", "Failed Searches",
   "Filtered (Domain Rules)", "Errors", "Success Rate (%)", "",
   "TOP 3 SOURCE DOMAINS"]
  ++ topDomainLines 1 ((sortDesc (domainCounts stats)).take 3)
  ++ ["", "NOTABLE FINDINGS"]
  ++ (if 10 * filteredCount stats > 3 * stats.length then ["⚠ High Filter Rate"] else [])
  ++ (if 5 * failedCount stats > stats.length then ["⚠ High Failure Rate"] else [])
  ++ ["Source Diversity"]
  ++ (if uniqueDomainCount stats < 5 ∧ successCount stats > 10 then ["⚠ Low Domain Diversity"] else [])

theorem strData_append (a b : String) : (a ++ b).data = a.data ++ b.data := rfl

theorem pyStrip_of_empty : pyStrip "" = "" := rfl

theorem stripNe_ne {x : String} (h : pyStrip x ≠ "") : x ≠ "" := by
  intro he
  apply h
  rw [he]
  exact pyStrip_of_empty

theorem strip_cond_iff (x : String) : (x ≠ "" ∧ pyStrip x ≠ "") ↔ pyStrip x ≠ "" :=
  ⟨fun h => h.2, fun h => ⟨stripNe_ne h, h⟩⟩

theorem allowed_ne_empty {u : String} {wl bl : Option (List String)}
    (h : is_domain_allowed u wl bl = true) : u ≠ "" := by
  intro he
  rw [he] at h
  simp [is_domain_allowed] at h

/-- C2 (counterexample to the claim as stated): the claimed procedure
rejects only empty, blacklisted or non-whitelisted URLs, so with neither
list present it accepts every non-empty URL; but `urlparse` raises
`ValueError: Invalid IPv6 URL` on `"http://["` and the source's
`except` (src/app.py lines 55-56) returns `False`: the program rejects a
non-empty URL the claimed procedure accepts. -/
theorem unparsable_url_counterexample :
    (("http://[" : String) == "") = false ∧
    is_domain_allowed "http://[" none none = false := by
  constructor
  · decide
  · decide

/-- C2 (amended): the domain filter implements exactly the claimed
decision procedure extended with the unparsable case: an empty URL is
rejected; a non-empty URL on which host extraction raises (mismatched
IPv6 brackets) is rejected through the `except` path; otherwise the
lowercased host is taken; a present (truthy) blacklist whose entries
include a case-insensitive substring of the host rejects regardless of
the whitelist; else a present whitelist accepts iff some entry occurs in
the host; else the URL is accepted.  The function is total and never
raises to its caller: the `except` converts the parse error to `False`. -/
theorem is_domain_allowed_decision_procedure (url : String) (wl bl : Option (List String)) :
    is_domain_allowed url wl bl = specAllows url wl bl := by
  unfold is_domain_allowed specAllows
  by_cases hu : url = ""
  · simp [hu]
  · simp only [hu, if_false, ite_false]
    cases hn : netlocTry url with
    | none => rfl
    | some host =>
      by_cases h1 : pyTruthy bl = true <;>
      by_cases h2 : (bl.getD []).any (fun e => pyIn (pyLower e) (pyLower host)) = true <;>
      simp [h1, h2]

/-- C3 (counterexample to the claim as stated): the status written for a
raised search call is `"Error: boom"` — the literal `"Error: "` with a
separating space — and not `"Error:"` immediately followed by the first
50 characters of the message. -/
theorem error_status_space_counterexample :
    (fillStats none none "" ⟨"P1", "widget", "", "Acme"⟩ (.error "boom")).searchStatus
        = "Error: boom" ∧
    (("Error: boom" : String) == "Error:" ++ strTake 50 "boom") = false := by
  constructor
  · decide
  · decide

/-- C3 (amended): the Search_Status is assigned by the claimed
classification evaluated in the claimed order, with the error status
being `"Error: "` (colon plus a space) followed by the first 50
characters of the message; and a returned two-URL list populates both
Image_URL slots positionally. -/
theorem row_status_classification (wl bl : Option (List String)) (now : String)
    (rec : Record) (resp : Resp) :
    (fillStats wl bl now rec resp).searchStatus = classifyStatus wl bl resp ∧
    ∀ (u1 u2 purl : String),
      (fillResult rec (.ok ([u1, u2], purl))).imageUrl1 = u1 ∧
      (fillResult rec (.ok ([u1, u2], purl))).imageUrl2 = u2 := by
  constructor
  · cases resp with
    | error e => rfl
    | ok p => cases p with | mk urls purl => rfl
  · intro u1 u2 purl
    exact ⟨rfl, rfl⟩

/-- C5 (counterexample to the claim as stated): for a record with brand
`"Acme"` and description `"widget"` whose search call returns normally,
the Search_Query written into the StatsRow is `"Acme widget"`, not the
composed SearchQuery of §3 (`"Acme widget product"`): the display query
of src/app.py lines 227-228 never appends the trailing `"product"`
token. -/
theorem stats_query_token_counterexample :
    (fillStats none none "" ⟨"P1", "widget", "", "Acme"⟩ (.ok ([], ""))).searchQuery
        = "Acme widget" ∧
    (("Acme widget" : String) == "Acme widget product") = false := by
  constructor
  · decide
  · decide

/-- C5 (amended): the Search_Query written into a processed record's
StatsRow is, when the search call returned normally, the space-joined
concatenation of the original (untrimmed) fields among
{brand, supplier, description} whose stripped value is non-empty, in that
order, with no trailing `"product"` token; a record whose search call
raised keeps the pre-created empty value. -/
theorem stats_query_value (wl bl : Option (List String)) (now : String)
    (rec : Record) (resp : Resp) :
    (fillStats wl bl now rec resp).searchQuery =
      match resp with
      | .error _ => ""
      | .ok _ => pyJoin " " (([rec.brand, rec.supplier, rec.description]).filter
          (fun p => pyStrip p != "")) := by
  cases resp with
  | error e => rfl
  | ok p => cases p with | mk urls purl => rfl

theorem pyJoin_product_pos : ∀ xs : List String, 0 < (pyJoin " " (xs ++ ["product"])).length := by
  intro xs
  rcases xs with _ | ⟨x, _ | ⟨y, t⟩⟩
  · decide
  · simp [pyJoin, String.length_append]
    exact Or.inl (Or.inr (by decide))
  · simp [pyJoin, String.length_append]
    exact Or.inl (Or.inr (by decide))

/-- C6: the query composed inside `search_product_images` is the
space-joined concatenation of the trimmed non-empty fields, in the order
brand, supplier, description, followed by the token `"product"`; the two
spec examples hold, and the composed query is never empty. -/
theorem search_query_composition (d s b : String) :
    buildSearchString d s b =
      pyJoin " " ((([b, s, d].map pyStrip).filter (fun p => p != "")) ++ ["product"]) ∧
    buildSearchString "widget" "" "Acme" = "Acme widget product" ∧
    buildSearchString "" "" "" = "product" ∧
    0 < (buildSearchString d s b).length := by
  refine ⟨?_, by decide, by decide, ?_⟩
  · by_cases hb : pyStrip b = "" <;> by_cases hs : pyStrip s = "" <;> by_cases hd : pyStrip d = ""
    all_goals
      try have hb2 : b ≠ "" := stripNe_ne hb
      try have hs2 : s ≠ "" := stripNe_ne hs
      try have hd2 : d ≠ "" := stripNe_ne hd
      simp [*, buildSearchString, List.filter_cons, bne_iff_ne]
  · unfold buildSearchString
    exact pyJoin_product_pos _

/-- C9: a supplied-but-empty whitelist imposes no restriction: every
well-formed URL — non-empty, with a host that extracts without raising —
whose lowercased host contains no blacklist entry is accepted by
`is_domain_allowed url [] blacklist` (Python's truthiness test
`if whitelist:` treats `[]` like an absent whitelist). -/
theorem empty_whitelist_accepts (url host : String) (bl : List String)
    (hu : url ≠ "")
    (hw : netlocTry url = some host)
    (hb : bl.all (fun b => !(pyIn (pyLower b) (pyLower host))) = true) :
    is_domain_allowed url (some []) (some bl) = true := by
  have hany : (bl.any (fun b => pyIn (pyLower b) (pyLower host))) = false := by
    rw [List.any_eq_false]
    intro b hbm
    have := List.all_eq_true.mp hb b hbm
    simpa using this
  unfold is_domain_allowed
  rw [if_neg hu, hw]
  simp [hany, pyTruthy]

/-- Witness for C9 at a concrete input: `http://shop.example.com/item`
with an empty whitelist and blacklist `["bad.com"]` is accepted. -/
theorem empty_whitelist_accepts_witness :
    is_domain_allowed "http://shop.example.com/item" (some []) (some ["bad.com"]) = true :=
  empty_whitelist_accepts "http://shop.example.com/item" "shop.example.com" ["bad.com"]
    (by decide) (by decide) (by decide)

theorem fillLoop_length (wl bl : Option (List String)) (now : String) (resp : Nat → Resp) :
    ∀ (sel : List Record) (i : Nat) (rs : List ResultRow) (ss : List StatsRow),
      (fillLoop wl bl now resp sel i rs ss).1.length = rs.length ∧
      (fillLoop wl bl now resp sel i rs ss).2.length = ss.length := by
  intro sel
  induction sel with
  | nil => intro i rs ss; simp [fillLoop]
  | cons r rest ih =>
    intro i rs ss
    rw [fillLoop]
    rcases ih (i + 1) (rs.set i (fillResult r (resp i)))
      (ss.set i (fillStats wl bl now r (resp i))) with ⟨h1, h2⟩
    rw [h1, h2]
    simp

theorem fillLoop_get_lt (wl bl : Option (List String)) (now : String) (resp : Nat → Resp) :
    ∀ (sel : List Record) (i : Nat) (rs : List ResultRow) (ss : List StatsRow) (k : Nat),
      k < i →
      (fillLoop wl bl now resp sel i rs ss).1[k]? = rs[k]? ∧
      (fillLoop wl bl now resp sel i rs ss).2[k]? = ss[k]? := by
  intro sel
  induction sel with
  | nil => intro i rs ss k _; simp [fillLoop]
  | cons r rest ih =>
    intro i rs ss k hk
    rw [fillLoop]
    rcases ih (i + 1) (rs.set i (fillResult r (resp i)))
      (ss.set i (fillStats wl bl now r (resp i))) k (Nat.lt_succ_of_lt hk) with ⟨h1, h2⟩
    rw [h1, h2]
    constructor
    · exact List.getElem?_set_ne (Nat.ne_of_gt hk)
    · exact List.getElem?_set_ne (Nat.ne_of_gt hk)

theorem fillLoop_get_at (wl bl : Option (List String)) (now : String) (resp : Nat → Resp) :
    ∀ (sel : List Record) (i : Nat) (rs : List ResultRow) (ss : List StatsRow) (j : Nat)
      (hj : j < sel.length),
      i + j < rs.length → i + j < ss.length →
      (fillLoop wl bl now resp sel i rs ss).1[i + j]? =
        some (fillResult (sel.get ⟨j, hj⟩) (resp (i + j))) ∧
      (fillLoop wl bl now resp sel i rs ss).2[i + j]? =
        some (fillStats wl bl now (sel.get ⟨j, hj⟩) (resp (i + j))) := by
  intro sel
  induction sel with
  | nil => intro i rs ss j hj; exact absurd hj (by simp)
  | cons r rest ih =>
    intro i rs ss j hj hr hs
    cases j with
    | zero =>
      simp only [Nat.add_zero] at hr hs ⊢
      rw [fillLoop]
      rcases fillLoop_get_lt wl bl now resp rest (i + 1)
        (rs.set i (fillResult r (resp i)))
        (ss.set i (fillStats wl bl now r (resp i))) i (Nat.lt_succ_self i) with ⟨h1, h2⟩
      rw [h1, h2]
      constructor
      · rw [List.getElem?_set_eq_of_lt _ hr]
        rfl
      · rw [List.getElem?_set_eq_of_lt _ hs]
        rfl
    | succ j' =>
      rw [fillLoop]
      have hj' : j' < rest.length := Nat.lt_of_succ_lt_succ hj
      have e : i + (j' + 1) = (i + 1) + j' := by omega
      rw [e] at hr hs ⊢
      rcases ih (i + 1) (rs.set i (fillResult r (resp i)))
        (ss.set i (fillStats wl bl now r (resp i))) j' hj'
        (by simpa using hr) (by simpa using hs) with ⟨h1, h2⟩
      rw [h1, h2]
      constructor
      · rfl
      · rfl

/-- C1: for every input record sequence, `process_dataframe` returns a
Results table and a Statistics table each with exactly one row per
selected input row (the first `num_rows`), row-aligned by position: row
`i` of each table is the pre-created empty row for record `i` filled from
record `i`'s search outcome — for every outcome environment, including
one where every row fails.  The fill loop never adds or removes a row
from either pre-created table. -/
theorem process_dataframe_row_alignment (wl bl : Option (List String)) (now : String)
    (records : List Record) (numRows : Nat) (resp : Nat → Resp) :
    (process_dataframe wl bl now records numRows resp).1.length = (records.take numRows).length ∧
    (process_dataframe wl bl now records numRows resp).2.length = (records.take numRows).length ∧
    (∀ i : Nat, (process_dataframe wl bl now records numRows resp).1[i]? =
        ((records.take numRows)[i]?).map (fun r => fillResult r (resp i))) ∧
    (∀ i : Nat, (process_dataframe wl bl now records numRows resp).2[i]? =
        ((records.take numRows)[i]?).map (fun r => fillStats wl bl now r (resp i))) ∧
    (∀ (sel : List Record) (i : Nat) (rs : List ResultRow) (ss : List StatsRow),
        (fillLoop wl bl now resp sel i rs ss).1.length = rs.length ∧
        (fillLoop wl bl now resp sel i rs ss).2.length = ss.length) := by
  have hlen := fillLoop_length wl bl now resp (records.take numRows) 0
    ((records.take numRows).map initResultRow) ((records.take numRows).map initStatsRow)
  have hL1 : (process_dataframe wl bl now records numRows resp).1.length
      = (records.take numRows).length := by
    unfold process_dataframe
    rw [hlen.1]
    simp
  have hL2 : (process_dataframe wl bl now records numRows resp).2.length
      = (records.take numRows).length := by
    unfold process_dataframe
    rw [hlen.2]
    simp
  refine ⟨hL1, hL2, ?_, ?_, fillLoop_length wl bl now resp⟩
  · intro i
    by_cases hi : i < (records.take numRows).length
    · have hat := fillLoop_get_at wl bl now resp (records.take numRows) 0
        ((records.take numRows).map initResultRow) ((records.take numRows).map initStatsRow)
        i hi (by simpa using hi) (by simpa using hi)
      rw [Nat.zero_add] at hat
      unfold process_dataframe
      rw [hat.1]
      rw [List.getElem?_eq_getElem hi]
      simp
    · have h1 : (process_dataframe wl bl now records numRows resp).1[i]? = none := by
        rw [List.getElem?_eq_none]
        omega
      have h2 : ((records.take numRows)[i]?) = none := by
        rw [List.getElem?_eq_none]
        omega
      rw [h1, h2]
      rfl
  · intro i
    by_cases hi : i < (records.take numRows).length
    · have hat := fillLoop_get_at wl bl now resp (records.take numRows) 0
        ((records.take numRows).map initResultRow) ((records.take numRows).map initStatsRow)
        i hi (by simpa using hi) (by simpa using hi)
      rw [Nat.zero_add] at hat
      unfold process_dataframe
      rw [hat.2]
      rw [List.getElem?_eq_getElem hi]
      simp
    · have h1 : (process_dataframe wl bl now records numRows resp).2[i]? = none := by
        rw [List.getElem?_eq_none]
        omega
      have h2 : ((records.take numRows)[i]?) = none := by
        rw [List.getElem?_eq_none]
        omega
      rw [h1, h2]
      rfl

theorem searchAttempts_all_fail (wl bl : Option (List String)) (m : Nat) :
    ∀ (l : List Attempt) (st : SearchState),
      (∀ a ∈ l, ∃ msg, a = .fail msg) →
      searchAttempts wl bl m l st =
        { st with backoffs := st.backoffs ++ List.replicate (l.length - 1) 3 } := by
  intro l
  induction l with
  | nil => intro st _; simp [searchAttempts]
  | cons a rest ih =>
    intro st h
    obtain ⟨msg, rfl⟩ := h a (List.mem_cons_self a rest)
    cases rest with
    | nil => simp [searchAttempts]
    | cons b t =>
      rw [searchAttempts]
      rw [ih _ (fun x hx => h x (List.mem_cons_of_mem _ hx))]
      simp [List.replicate_succ]

/-- C4: `search_product_images` never raises to its caller: the transport
is tried `retry_count` times in total, a fixed 3-second backoff is slept
between consecutive failed attempts, and when every attempt fails the
function returns the empty result — an empty URL list and an empty source
page URL — instead of propagating the error. -/
theorem search_never_raises_on_total_failure (wl bl : Option (List String)) (m retry : Nat)
    (outcomes : Nat → Attempt)
    (h : ∀ i, i < retry → ∃ msg, outcomes i = .fail msg) :
    search_product_images wl bl m retry outcomes = ([], "", List.replicate (retry - 1) 3) := by
  unfold search_product_images
  rw [searchAttempts_all_fail wl bl m ((List.range retry).map outcomes) ⟨[], "", []⟩ ?_]
  · simp
  · intro a ha
    rw [List.mem_map] at ha
    obtain ⟨i, hi, rfl⟩ := ha
    exact h i (List.mem_range.mp hi)

/-- Witness for C4: with two attempts that both fail with `"timeout"`,
the call returns the empty result after one 3-second backoff. -/
theorem search_never_raises_witness :
    search_product_images none none 2 2 (fun _ => Attempt.fail "timeout") = ([], "", [3]) := by
  have h := search_never_raises_on_total_failure none none 2 2
    (fun _ => Attempt.fail "timeout") (fun i _ => ⟨"timeout", rfl⟩)
  simpa using h

theorem scanContainers_cons (wl bl : Option (List String)) (m : Nat)
    (c : Option Candidate) (rest : List (Option Candidate)) (us : List String) (sp : String) :
    scanContainers wl bl m (c :: rest) us sp =
      if m ≤ us.length then (us, sp)
      else scanContainers wl bl m rest (scanUpdate wl bl c us sp).1 (scanUpdate wl bl c us sp).2 := by
  rw [scanContainers.eq_def]

theorem candAccepted_parts {wl bl : Option (List String)} {cand : Candidate}
    (h : candAccepted wl bl cand = true) :
    is_domain_allowed cand.purl wl bl = true ∧
    ∃ iu, candImage cand = some iu ∧ imageOk iu = true := by
  unfold candAccepted at h
  rw [Bool.and_eq_true] at h
  rcases h with ⟨h1, h2⟩
  refine ⟨h1, ?_⟩
  cases him : candImage cand with
  | none => rw [him] at h2; exact absurd h2 (by simp)
  | some iu => rw [him] at h2; exact ⟨iu, rfl, h2⟩

theorem scanUpdate_accepted (wl bl : Option (List String)) (cand : Candidate)
    (us : List String) (sp : String) (h : candAccepted wl bl cand = true) :
    scanUpdate wl bl (some cand) us sp =
      (us ++ [(candImage cand).getD ""], if sp = "" then cand.purl else sp) := by
  rcases candAccepted_parts h with ⟨hd, iu, him, hok⟩
  have hp : cand.purl ≠ "" := allowed_ne_empty hd
  rw [scanUpdate, if_pos hd, him]
  simp only [hok, if_true, Option.getD_some]
  congr 1
  by_cases hsp : sp = ""
  · simp [hsp, hp]
  · simp [hsp]

theorem scanUpdate_skipped (wl bl : Option (List String)) (c : Option Candidate)
    (us : List String) (sp : String)
    (h : ∀ cand, c = some cand → candAccepted wl bl cand = false) :
    scanUpdate wl bl c us sp = (us, sp) := by
  cases c with
  | none => rfl
  | some cand =>
    have hc := h cand rfl
    unfold candAccepted at hc
    rw [scanUpdate]
    by_cases hd : is_domain_allowed cand.purl wl bl = true
    · rw [if_pos hd]
      rw [hd] at hc
      simp only [Bool.true_and] at hc
      cases him : candImage cand with
      | none => rfl
      | some iu =>
        rw [him] at hc
        simp at hc
        simp [hc]
    · rw [if_neg hd]

theorem scan_urls_long (wl bl : Option (List String)) (m : Nat) :
    ∀ (cs : List (Option Candidate)) (us : List String) (sp : String),
      (∀ u ∈ us, 20 < u.length) →
      ∀ u ∈ (scanContainers wl bl m cs us sp).1, 20 < u.length := by
  intro cs
  induction cs with
  | nil => intro us sp h; simpa [scanContainers] using h
  | cons c rest ih =>
    intro us sp h
    rw [scanContainers_cons]
    by_cases hm : m ≤ us.length
    · rw [if_pos hm]
      exact h
    · rw [if_neg hm]
      by_cases hacc : ∃ cand, c = some cand ∧ candAccepted wl bl cand = true
      · rcases hacc with ⟨cand, rfl, hc⟩
        rw [scanUpdate_accepted wl bl cand us sp hc]
        refine ih _ _ ?_
        intro u hu
        rcases List.mem_append.mp hu with h1 | h2
        · exact h u h1
        · have he : u = (candImage cand).getD "" := List.mem_singleton.mp h2
          rcases candAccepted_parts hc with ⟨-, iu, him, hok⟩
          rw [he, him]
          exact (of_decide_eq_true hok).2
      · rw [scanUpdate_skipped wl bl c us sp ?_]
        · exact ih us sp h
        · intro cand hcand
          by_cases hca : candAccepted wl bl cand = true
          · exact absurd ⟨cand, hcand, hca⟩ hacc
          · exact Bool.not_eq_true _ ▸ (by revert hca; cases candAccepted wl bl cand <;> simp)

theorem attempts_urls_long (wl bl : Option (List String)) (m : Nat) :
    ∀ (l : List Attempt) (st : SearchState),
      (∀ u ∈ st.imageUrls, 20 < u.length) →
      ∀ u ∈ (searchAttempts wl bl m l st).imageUrls, 20 < u.length := by
  intro l
  induction l with
  | nil => intro st h; simpa [searchAttempts] using h
  | cons a rest ih =>
    intro st h
    cases a with
    | fail msg =>
      cases rest with
      | nil => simpa [searchAttempts] using h
      | cons b t =>
        rw [searchAttempts]
        exact ih _ h
    | ok cs =>
      rw [searchAttempts]
      have hscan := scan_urls_long wl bl m (cs.take (m * 3)) st.imageUrls st.sourcePageUrl h
      by_cases he : (scanContainers wl bl m (cs.take (m * 3)) st.imageUrls st.sourcePageUrl).1.isEmpty
      · simp only [he, if_true]
        exact ih _ hscan
      · simp only [he, if_false, Bool.false_eq_true, ite_false]
        exact hscan

/-- C10: every image URL returned by `search_product_images` — hence
every non-empty Image_URL value in the Results table — is strictly longer
than 20 characters: a candidate whose image URL is missing, empty or at
most 20 characters long is silently skipped (src/app.py line 113). -/
theorem image_urls_longer_than_20 (wl bl : Option (List String)) (m retry : Nat)
    (outcomes : Nat → Attempt) (u : String)
    (hu : u ∈ (search_product_images wl bl m retry outcomes).1) : 20 < u.length := by
  unfold search_product_images at hu
  have h := attempts_urls_long wl bl m ((List.range retry).map outcomes) ⟨[], "", []⟩
    (by intro v hv; simp at hv)
  exact h u (List.mem_of_mem_take hu)

/-- Witness for C10: a concrete run returning one image URL, which is 28
characters long. -/
theorem image_urls_longer_than_20_witness :
    "http://img.example.com/a.jpg" ∈ (search_product_images none none 2 2
      (fun _ => Attempt.ok [some ⟨"http://example.com/p",
        some "http://img.example.com/a.jpg", none⟩])).1 ∧
    20 < ("http://img.example.com/a.jpg" : String).length :=
  ⟨by decide, image_urls_longer_than_20 none none 2 2
    (fun _ => Attempt.ok [some ⟨"http://example.com/p",
      some "http://img.example.com/a.jpg", none⟩])
    "http://img.example.com/a.jpg" (by decide)⟩

theorem acceptedList_cons_none (wl bl : Option (List String)) (rest : List (Option Candidate)) :
    acceptedList wl bl (none :: rest) = acceptedList wl bl rest := by
  simp [acceptedList]

theorem acceptedList_cons_true (wl bl : Option (List String)) (cand : Candidate)
    (rest : List (Option Candidate)) (hc : candAccepted wl bl cand = true) :
    acceptedList wl bl (some cand :: rest) = cand :: acceptedList wl bl rest := by
  simp [acceptedList, hc]

theorem acceptedList_cons_false (wl bl : Option (List String)) (cand : Candidate)
    (rest : List (Option Candidate)) (hc : candAccepted wl bl cand = false) :
    acceptedList wl bl (some cand :: rest) = acceptedList wl bl rest := by
  simp [acceptedList, hc]

theorem head?_take_pos {α : Type} (l : List α) (m : Nat) (hm : 0 < m) :
    (l.take m).head? = l.head? := by
  cases l with
  | nil => simp
  | cons a t =>
    obtain ⟨k, rfl⟩ : ∃ k, m = k + 1 := ⟨m - 1, by omega⟩
    simp

theorem scan_eq (wl bl : Option (List String)) (m : Nat) :
    ∀ (cs : List (Option Candidate)) (us : List String) (sp : String),
      scanContainers wl bl m cs us sp =
        (us ++ ((acceptedList wl bl cs).map (fun c => (candImage c).getD "")).take (m - us.length),
         if sp = "" then
           (((acceptedList wl bl cs).take (m - us.length)).head?.map Candidate.purl).getD ""
         else sp) := by
  intro cs
  induction cs with
  | nil =>
    intro us sp
    show (us, sp) = _
    simp only [acceptedList, List.filterMap_nil, List.filter_nil, List.map_nil,
      List.take_nil, List.append_nil, List.head?_nil, Option.map_none', Option.getD_none]
    by_cases hsp : sp = "" <;> simp [hsp]
  | cons c rest ih =>
    intro us sp
    rw [scanContainers_cons]
    by_cases hm : m ≤ us.length
    · rw [if_pos hm]
      rw [Nat.sub_eq_zero_of_le hm]
      simp only [List.take_zero, List.append_nil, List.head?_nil, Option.map_none',
        Option.getD_none]
      by_cases hsp : sp = "" <;> simp [hsp]
    · rw [if_neg hm]
      have hlt : us.length < m := Nat.lt_of_not_le hm
      by_cases hacc : ∃ cand, c = some cand ∧ candAccepted wl bl cand = true
      · rcases hacc with ⟨cand, rfl, hc⟩
        rw [scanUpdate_accepted wl bl cand us sp hc]
        rw [ih]
        rw [acceptedList_cons_true wl bl cand rest hc]
        have hp : cand.purl ≠ "" :=
          allowed_ne_empty (candAccepted_parts hc).1
        have hmu : m - us.length = (m - (us.length + 1)) + 1 := by omega
        rw [hmu]
        simp only [List.map_cons, List.take_succ_cons, List.length_append,
          List.length_singleton]
        rw [Prod.mk.injEq]
        constructor
        · rw [List.append_assoc, List.singleton_append]
        · rw [List.head?_cons]
          by_cases hsp : sp = ""
          · simp [hsp, hp]
          · simp [hsp]
      · have hskip : ∀ cand, c = some cand → candAccepted wl bl cand = false := by
          intro cand hcand
          cases hca : candAccepted wl bl cand with
          | false => rfl
          | true => exact absurd ⟨cand, hcand, hca⟩ hacc
        rw [scanUpdate_skipped wl bl c us sp hskip]
        rw [ih]
        have hal : acceptedList wl bl (c :: rest) = acceptedList wl bl rest := by
          cases c with
          | none => exact acceptedList_cons_none wl bl rest
          | some cand => exact acceptedList_cons_false wl bl cand rest (hskip cand rfl)
        rw [hal]

theorem attempts_result (wl bl : Option (List String)) (m : Nat) (hm : 0 < m) :
    ∀ (l : List Attempt) (bs : List Nat),
      (searchAttempts wl bl m l ⟨[], "", bs⟩).imageUrls =
        ((firstAcceptedCands wl bl m l).map (fun c => (candImage c).getD "")).take m ∧
      (searchAttempts wl bl m l ⟨[], "", bs⟩).sourcePageUrl =
        ((firstAcceptedCands wl bl m l).head?.map Candidate.purl).getD "" := by
  intro l
  induction l with
  | nil => intro bs; constructor <;> simp [searchAttempts, firstAcceptedCands]
  | cons a rest ih =>
    intro bs
    cases a with
    | fail msg =>
      cases rest with
      | nil => constructor <;> simp [searchAttempts, firstAcceptedCands]
      | cons b t =>
        rw [searchAttempts, firstAcceptedCands]
        exact ih (bs ++ [3])
    | ok cs =>
      rw [searchAttempts, firstAcceptedCands]
      dsimp only
      rw [scan_eq]
      dsimp only
      simp only [List.nil_append, List.length_nil, Nat.sub_zero, eq_self_iff_true, if_true]
      have hiff : (((acceptedList wl bl (cs.take (m * 3))).map
          (fun c => (candImage c).getD "")).take m).isEmpty
          = (acceptedList wl bl (cs.take (m * 3))).isEmpty := by
        cases hA : acceptedList wl bl (cs.take (m * 3)) with
        | nil => simp
        | cons c t =>
          obtain ⟨k, rfl⟩ : ∃ k, m = k + 1 := ⟨m - 1, by omega⟩
          simp
      by_cases hempty : (acceptedList wl bl (cs.take (m * 3))).isEmpty = true
      · have hA : acceptedList wl bl (cs.take (m * 3)) = [] := by
          rwa [List.isEmpty_iff] at hempty
        rw [hA]
        simp only [List.map_nil, List.take_nil, List.isEmpty_nil, if_true, List.head?_nil,
          Option.map_none', Option.getD_none]
        exact ih bs
      · rw [hiff, if_neg hempty, if_neg hempty]
        dsimp only
        refine ⟨rfl, ?_⟩
        rw [head?_take_pos _ m hm]

theorem firstAccepted_all (wl bl : Option (List String)) (m : Nat) :
    ∀ l : List Attempt, (firstAcceptedCands wl bl m l).all (candAccepted wl bl) = true := by
  intro l
  induction l with
  | nil => rfl
  | cons a rest ih =>
    cases a with
    | fail msg => rw [firstAcceptedCands]; exact ih
    | ok cs =>
      rw [firstAcceptedCands]
      by_cases hempty : (acceptedList wl bl (cs.take (m * 3))).isEmpty = true
      · rw [if_pos hempty]; exact ih
      · rw [if_neg hempty]
        rw [List.all_eq_true]
        intro c hc
        exact (List.mem_filter.mp hc).2

/-- C7: every `search_product_images` outcome contains at most
`max_results` (fixed at 2) image URLs, namely the image URLs of the
first accepted candidates — each accepted only after its hosting page URL
passed the domain filter — and at most one source page URL: the hosting
page URL of the first accepted candidate (empty when nothing is
accepted); in the ResultRow the returned URLs fill the Image_URL slots
positionally, unused slots stay empty, and Product_Page_URL is the
returned source page URL. -/
theorem search_outcome_structure (wl bl : Option (List String)) (retry : Nat)
    (outcomes : Nat → Attempt) (rec : Record) :
    (search_product_images wl bl 2 retry outcomes).1.length ≤ 2 ∧
    (search_product_images wl bl 2 retry outcomes).1 =
      ((firstAcceptedCands wl bl 2 ((List.range retry).map outcomes)).map
        (fun c => (candImage c).getD "")).take 2 ∧
    (firstAcceptedCands wl bl 2 ((List.range retry).map outcomes)).all
      (candAccepted wl bl) = true ∧
    (search_product_images wl bl 2 retry outcomes).2.1 =
      ((firstAcceptedCands wl bl 2 ((List.range retry).map outcomes)).head?.map
        Candidate.purl).getD "" ∧
    (∀ (urls : List String) (purl : String),
      (fillResult rec (.ok (urls, purl))).imageUrl1 = urls.getD 0 "" ∧
      (fillResult rec (.ok (urls, purl))).imageUrl2 = urls.getD 1 "" ∧
      (fillResult rec (.ok (urls, purl))).productPageUrl = purl) := by
  rcases attempts_result wl bl 2 (by omega) ((List.range retry).map outcomes) [] with ⟨h1, h2⟩
  refine ⟨?_, ?_, firstAccepted_all wl bl 2 ((List.range retry).map outcomes), ?_, ?_⟩
  · show ((searchAttempts wl bl 2 ((List.range retry).map outcomes) ⟨[], "", []⟩).imageUrls.take
      2).length ≤ 2
    rw [List.length_take]
    omega
  · show (searchAttempts wl bl 2 ((List.range retry).map outcomes) ⟨[], "", []⟩).imageUrls.take 2
        = _
    rw [h1, List.take_take]
    norm_num
  · exact h2
  · intro urls purl
    exact ⟨rfl, rfl, rfl⟩

theorem topLines_head_hash :
    ∀ (i : Nat) (l : List (String × Nat)) (w : String),
      w ∈ topDomainLines i l → w.data.head? = some '#' := by
  intro i l
  induction l generalizing i with
  | nil => intro w hw; simp [topDomainLines] at hw
  | cons p rest ih =>
    intro w hw
    obtain ⟨d, c⟩ := p
    rw [topDomainLines] at hw
    rcases List.mem_cons.mp hw with he | h
    · rw [he]
      show (((("#" ++ toString i) ++ " - ") ++ d)).data.head? = some '#'
      rw [strData_append, strData_append, strData_append]
      rfl
    · exact ih (i + 1) w h

theorem warn_not_mem_topLines (i : Nat) (l : List (String × Nat)) (w : String)
    (hw : w.data.head? ≠ some '#') : w ∉ topDomainLines i l :=
  fun h => hw (topLines_head_hash i l w h)

/-- C8: the Summary table contains each conditional advisory line exactly
when its threshold holds: the high-filter-rate warning iff the filtered
count exceeds 30% of the rows processed, the high-failure-rate warning
iff the failed count exceeds 20%, and the low-domain-diversity warning
iff fewer than 5 distinct Source_Domain values co-occur with more than 10
successes.  (The percentage thresholds are the exact forms of the
source's float comparisons, which agree on every representable table
size.) -/
theorem summary_advisory_lines (stats : List StatsRow) :
    (("⚠ High Filter Rate" ∈ summaryMetrics stats) ↔
      10 * filteredCount stats > 3 * stats.length) ∧
    (("⚠ High Failure Rate" ∈ summaryMetrics stats) ↔
      5 * failedCount stats > stats.length) ∧
    (("⚠ Low Domain Diversity" ∈ summaryMetrics stats) ↔
      (uniqueDomainCount stats < 5 ∧ successCount stats > 10)) := by
  have t1 := warn_not_mem_topLines 1 ((sortDesc (domainCounts stats)).take 3)
    "⚠ High Filter Rate" (by decide)
  have t2 := warn_not_mem_topLines 1 ((sortDesc (domainCounts stats)).take 3)
    "⚠ High Failure Rate" (by decide)
  have t3 := warn_not_mem_topLines 1 ((sortDesc (domainCounts stats)).take 3)
    "⚠ Low Domain Diversity" (by decide)
  unfold summaryMetrics
  refine ⟨?_, ?_, ?_⟩
  · by_cases c1 : 10 * filteredCount stats > 3 * stats.length
    · simp [c1]
    · simp [c1, t1]
  · by_cases c2 : 5 * failedCount stats > stats.length
    · simp [c2]
    · simp [c2, t2]
  · by_cases c3 : uniqueDomainCount stats < 5 ∧ successCount stats > 10
    · simp [c3]
    · simp [c3, t3]
